import Mathlib

/-
  Verification development for the lead-fetching pipeline
  (src/fetcher.py and src/utils/db.py).

  The Python code is shallowly embedded: JSON values are an inductive type,
  Python truthiness and dict/list access are explicit functions, and any
  operation that can raise a Python exception is modelled in Option, with
  none standing for a raised exception.  Machine-level concerns (sqlite,
  HTTP transport, logging) are abstracted to their observable behaviour:
  the seen-lead table is a set of strings, the HTTP server is a function
  from requests to responses.
-/

/-- JSON values as produced by json.load and handed around in fetcher.py.
Numbers are modelled as integers; none of the code under verification
performs numeric arithmetic, only truthiness tests and stringification. -/
inductive Json where
  | null
  | bool (b : Bool)
  | num (n : Int)
  | str (s : String)
  | arr (elems : List Json)
  | obj (fields : List (String × Json))
deriving Repr

mutual
/-- Boolean equality on Json, elementwise. -/
def Json.beq : Json → Json → Bool
  | .null, .null => true
  | .bool a, .bool b => a == b
  | .num a, .num b => a == b
  | .str a, .str b => a == b
  | .arr a, .arr b => Json.beqList a b
  | .obj a, .obj b => Json.beqObj a b
  | _, _ => false

/-- Elementwise equality of Json lists. -/
def Json.beqList : List Json → List Json → Bool
  | [], [] => true
  | a :: as, b :: bs => Json.beq a b && Json.beqList as bs
  | _, _ => false

/-- Elementwise equality of Json key-value lists. -/
def Json.beqObj : List (String × Json) → List (String × Json) → Bool
  | [], [] => true
  | (ka, va) :: as, (kb, vb) :: bs => ka == kb && Json.beq va vb && Json.beqObj as bs
  | _, _ => false
end

mutual
theorem Json.beq_iff : ∀ a b : Json, Json.beq a b = true ↔ a = b
  | .null, .null => by simp [Json.beq]
  | .null, .bool _ | .null, .num _ | .null, .str _ | .null, .arr _ | .null, .obj _ => by simp [Json.beq]
  | .bool _, .null | .bool _, .num _ | .bool _, .str _ | .bool _, .arr _ | .bool _, .obj _ => by simp [Json.beq]
  | .num _, .null | .num _, .bool _ | .num _, .str _ | .num _, .arr _ | .num _, .obj _ => by simp [Json.beq]
  | .str _, .null | .str _, .bool _ | .str _, .num _ | .str _, .arr _ | .str _, .obj _ => by simp [Json.beq]
  | .arr _, .null | .arr _, .bool _ | .arr _, .num _ | .arr _, .str _ | .arr _, .obj _ => by simp [Json.beq]
  | .obj _, .null | .obj _, .bool _ | .obj _, .num _ | .obj _, .str _ | .obj _, .arr _ => by simp [Json.beq]
  | .bool _, .bool _ => by simp [Json.beq]
  | .num _, .num _ => by simp [Json.beq]
  | .str _, .str _ => by simp [Json.beq]
  | .arr a, .arr b => by simpa [Json.beq] using Json.beqList_iff a b
  | .obj a, .obj b => by simpa [Json.beq] using Json.beqObj_iff a b

theorem Json.beqList_iff : ∀ a b : List Json, Json.beqList a b = true ↔ a = b
  | [], [] => by simp [Json.beqList]
  | [], _ :: _ => by simp [Json.beqList]
  | _ :: _, [] => by simp [Json.beqList]
  | a :: as, b :: bs => by
      simp only [Json.beqList, Bool.and_eq_true, Json.beq_iff a b, Json.beqList_iff as bs,
        List.cons.injEq]

theorem Json.beqObj_iff : ∀ a b : List (String × Json), Json.beqObj a b = true ↔ a = b
  | [], [] => by simp [Json.beqObj]
  | [], _ :: _ => by simp [Json.beqObj]
  | _ :: _, [] => by simp [Json.beqObj]
  | (ka, va) :: as, (kb, vb) :: bs => by
      simp only [Json.beqObj, Bool.and_eq_true, Json.beq_iff va vb, Json.beqObj_iff as bs,
        List.cons.injEq, beq_iff_eq, Prod.mk.injEq]
end

instance : DecidableEq Json := fun a b =>
  decidable_of_iff (Json.beq a b = true) (Json.beq_iff a b)

/-- Python truthiness of a JSON value: None, False, 0, the empty string,
the empty list and the empty dict are falsy, everything else is truthy. -/
def Json.truthy : Json → Bool
  | .null => false
  | .bool b => b
  | .num n => n != 0
  | .str s => s != ""
  | .arr xs => !xs.isEmpty
  | .obj kvs => !kvs.isEmpty

/-- Python str.strip() whitespace test, restricted to the ASCII whitespace
characters (the records under verification contain no other whitespace). -/
def isPySpace (c : Char) : Bool :=
  c == ' ' || c == '\t' || c == '\n' || c == '\r' || c == '\x0b' || c == '\x0c'

/-- Python str.strip(): remove leading and trailing whitespace. -/
def pyStripStr (s : String) : String :=
  String.mk (((s.data.dropWhile isPySpace).reverse.dropWhile isPySpace).reverse)

/-- Python str.lower(), restricted to ASCII letters. -/
def pyLowerStr (s : String) : String :=
  String.mk (s.data.map Char.toLower)

/-- Whether the second list is an initial segment of the first. -/
def startsWithL : List Char → List Char → Bool
  | [], _ => true
  | _ :: _, [] => false
  | p :: ps, c :: cs => p == c && startsWithL ps cs

/-- Substring containment on character lists. -/
def containsSub : List Char → List Char → Bool
  | [], pat => pat.isEmpty
  | c :: cs, pat => startsWithL pat (c :: cs) || containsSub cs pat

/-- Python substring test: pat in s. -/
def strContains (s pat : String) : Bool := containsSub s.data pat.data

mutual
/-- Python repr of a JSON value (string escaping inside nested values is
not reproduced; no verified property depends on it). -/
def pyRepr : Json → String
  | .null => "None"
  | .bool true => "True"
  | .bool false => "False"
  | .num n => toString n
  | .str s => "\x27" ++ s ++ "\x27"
  | .arr xs => "[" ++ pyReprList xs ++ "]"
  | .obj kvs => "\x7b" ++ pyReprObj kvs ++ "\x7d"

/-- Comma-separated reprs of list elements. -/
def pyReprList : List Json → String
  | [] => ""
  | [x] => pyRepr x
  | x :: y :: xs => pyRepr x ++ ", " ++ pyReprList (y :: xs)

/-- Comma-separated reprs of dict entries. -/
def pyReprObj : List (String × Json) → String
  | [] => ""
  | [(k, v)] => "\x27" ++ k ++ "\x27: " ++ pyRepr v
  | (k, v) :: y :: xs => "\x27" ++ k ++ "\x27: " ++ pyRepr v ++ ", " ++ pyReprObj (y :: xs)
end

/-- Python str() applied to a JSON value. -/
def pyStr : Json → String
  | .str s => s
  | j => pyRepr j

/-- Lookup in a dict with a default: dict.get(k, d). -/
def objGetD (kvs : List (String × Json)) (k : String) (d : Json) : Json :=
  match kvs.find? (fun kv => kv.1 == k) with
  | some kv => kv.2
  | none => d

/-- Python x.get(k): None default when the key is absent; raises
AttributeError (modelled as none) when x is not a dict. -/
def pyGet (j : Json) (k : String) : Option Json :=
  match j with
  | .obj kvs => some (objGetD kvs k .null)
  | _ => none

/-- Python iteration, for x in j: lists yield their elements, strings
their one-character substrings, dicts their keys; other values raise
TypeError (modelled as none). -/
def pyIter : Json → Option (List Json)
  | .arr xs => some xs
  | .str s => some (s.data.map (fun c => Json.str (String.mk [c])))
  | .obj kvs => some (kvs.map (fun kv => Json.str kv.1))
  | _ => none

/-- Python a or b on JSON values: a when truthy, otherwise b. -/
def pyOr (a b : Json) : Json := if a.truthy then a else b

/-- A Python variable holding None or a string, as a JSON value. -/
def optStrJson : Option String → Json
  | none => .null
  | some s => .str s

/-- Truthiness of a Python variable holding None or a string. -/
def optTruthy : Option String → Bool
  | none => false
  | some s => s != ""

/-- Python string-method access: succeeds only on strings; attribute
access such as .strip() or .lower() on any other value raises
AttributeError (modelled as none). -/
def asStr : Json → Option String
  | .str s => some s
  | _ => none

/-- Python subscript x[0]: first element of a list, first character of a
string; raises on every other value, including empty sequences (modelled
as none).  Dict subscript with the integer 0 raises KeyError because JSON
object keys are strings. -/
def jsonSub0 : Json → Option Json
  | .arr (v :: _) => some v
  | .str s =>
    match s.data with
    | c :: _ => some (.str (String.mk [c]))
    | [] => none
  | _ => none

/-- The normalized lead dict built at the end of normalize_lead
(fetcher.py lines 135-142).  lead_id is None or a string because it is
produced by the expression str(lead_id) if lead_id is not None else None;
the remaining fields can hold arbitrary values taken from the raw record
by the fallback path. -/
structure NormLead where
  lead_id : Option String
  created_time : Json
  name : Json
  email : Json
  phone : Json
  raw : Json
deriving Repr, DecidableEq

/-- The key computation of one field_data entry (fetcher.py line 113):
  key = (field.get("name") or "").lower()
none models a raised exception: field.get on a non-dict entry, or
.lower() on a truthy non-string name. -/
def fieldKey (field : Json) : Option String :=
  match pyGet field "name" with
  | none => none
  | some nv =>
    match asStr (if nv.truthy then nv else .str "") with
    | none => none
    | some ks => some (pyLowerStr ks)

/-- The first-value computation of one field_data entry (fetcher.py
lines 114-117):
  vals = field.get("values") or []
  if isinstance(vals, str): vals = [vals]
  val = vals[0] if vals else None
none models a raised exception: a truthy non-sequence values (numbers,
booleans and dicts are not subscriptable at 0 here). -/
def fieldVal (field : Json) : Option Json :=
  match pyGet field "values" with
  | none => none
  | some vs0 =>
    let vs1 := if vs0.truthy then vs0 else .arr []
    let vs := match vs1 with | .str s => Json.arr [.str s] | v => v
    if vs.truthy then jsonSub0 vs else some .null

/-- The field_data loop of normalize_lead (fetcher.py lines 112-128),
threading the three accumulators name, email, phone in declaration
order.  Key and value are computed in program order, then a falsy value
is skipped, then the substring classification assigns through the
or-short-circuit (a truthy accumulator is kept and the value methods
are not evaluated); none models a raised exception. -/
def fieldPass : List Json → Option String → Option String → Option String →
    Option (Option String × Option String × Option String)
  | [], name, email, phone => some (name, email, phone)
  | field :: rest, name, email, phone =>
    match fieldKey field with
    | none => none
    | some key =>
      match fieldVal field with
      | none => none
      | some val =>
        if !val.truthy then fieldPass rest name email phone
        else if strContains key "email" then
          if optTruthy email then fieldPass rest name email phone
          else
            match asStr val with
            | none => none
            | some s => fieldPass rest name (some (pyLowerStr (pyStripStr s))) phone
        else if strContains key "name" || strContains key "full_name" ||
            strContains key "first_name" then
          if optTruthy name then fieldPass rest name email phone
          else
            match asStr val with
            | none => none
            | some s => fieldPass rest (some (pyStripStr s)) email phone
        else if strContains key "phone" || strContains key "mobile" then
          if optTruthy phone then fieldPass rest name email phone
          else
            match asStr val with
            | none => none
            | some s => fieldPass rest name email (some (pyStripStr s))
        else fieldPass rest name email phone

/-- The iterable produced by raw.get("field_data", []) or [] in
fetcher.py line 112.  A truthy non-list value makes the model fail like
the Python does: numbers and booleans are not iterable, and iterating a
truthy string or dict yields strings, which then raise inside the loop
at field.get("name"). -/
def fieldListOf (kvs : List (String × Json)) : Option (List Json) :=
  let fd0 := objGetD kvs "field_data" (.arr [])
  pyIter (if fd0.truthy then fd0 else .arr [])

/-- normalize_lead (fetcher.py lines 101-142).  Calling .get on a
non-dict record raises immediately, hence the none in the catch-all
branch. -/
def normalize_lead (raw : Json) : Option NormLead :=
  match raw with
  | .obj kvs =>
    let lead_id := objGetD kvs "id" .null
    let created_time := objGetD kvs "created_time" .null
    match fieldListOf kvs with
    | none => none
    | some fields =>
      match fieldPass fields none none none with
      | none => none
      | some (name, email, phone) =>
        some
          { lead_id := match lead_id with | .null => none | j => some (pyStr j)
            created_time := created_time
            name := pyOr (pyOr (optStrJson name) (objGetD kvs "name" .null))
              (objGetD kvs "full_name" .null)
            email := pyOr (pyOr (optStrJson email) (objGetD kvs "email" .null))
              (objGetD kvs "email_address" .null)
            phone := pyOr (pyOr (optStrJson phone) (objGetD kvs "phone" .null))
              (objGetD kvs "phone_number" .null)
            raw := raw }
  | _ => none

/-- The seen-lead store (src/utils/db.py): a sqlite table with a single
text primary-key column, modelled by its set of stored identifiers. -/
abbrev LeadDB := List String

/-- LeadDB.is_seen (db.py lines 23-25): SELECT 1 FROM seen_leads WHERE
lead_id=? and test whether a row came back. -/
def LeadDB.is_seen (db : LeadDB) (lead_id : String) : Bool :=
  db.contains lead_id

/-- LeadDB.mark_seen (db.py lines 27-31): INSERT OR IGNORE, a no-op when
the identifier is already present. -/
def LeadDB.mark_seen (db : LeadDB) (lead_id : String) : LeadDB :=
  if db.contains lead_id then db else db ++ [lead_id]

/-- One operation issued against a LeadDB. -/
inductive DbOp where
  | check (lead_id : String)
  | mark (lead_id : String)
deriving Repr, DecidableEq

/-- Run a sequence of store operations; a SELECT leaves the state
unchanged, a mark inserts. -/
def applyOps : List DbOp → LeadDB → LeadDB
  | [], db => db
  | .check _ :: rest, db => applyOps rest db
  | .mark i :: rest, db => applyOps rest (db.mark_seen i)

/-- The per-record loop of main (fetcher.py lines 204-226): normalize,
skip when the id is falsy, skip when both email and phone are falsy,
skip when already seen, otherwise append the normalized record to the
accepted batch and, unless dry_run, mark it seen at once.  The dict
appended at lines 217-224 repeats exactly the six fields of the
normalized record, so the batch collects NormLead values.  none models
an exception escaping the loop. -/
def runLeads (dry_run : Bool) :
    List Json → List NormLead → LeadDB → Option (List NormLead × LeadDB)
  | [], acc, db => some (acc, db)
  | raw :: rest, acc, db =>
    match normalize_lead raw with
    | none => none
    | some n =>
      match n.lead_id with
      | none => runLeads dry_run rest acc db
      | some lid =>
        if lid == "" then runLeads dry_run rest acc db
        else if !n.email.truthy && !n.phone.truthy then runLeads dry_run rest acc db
        else if db.is_seen lid then runLeads dry_run rest acc db
        else runLeads dry_run rest (acc ++ [n]) (if dry_run then db else db.mark_seen lid)

/-- The pipeline applied to a list of raw records, starting from an
empty accepted batch. -/
def mainPipeline (dry_run : Bool) (raws : List Json) (db : LeadDB) :
    Option (List NormLead × LeadDB) :=
  runLeads dry_run raws [] db

/-- The identifier under which a raw record would be accepted, when its
normalization succeeds, its id is truthy and it has a contact channel;
none otherwise.  This mirrors the three validity tests of the loop and
is independent of the store state. -/
def candidateLid (raw : Json) : Option String :=
  match normalize_lead raw with
  | none => none
  | some n =>
    match n.lead_id with
    | none => none
    | some lid =>
      if lid == "" then none
      else if !n.email.truthy && !n.phone.truthy then none
      else some lid

/-- An HTTP request as issued by fetch_leads: the target URL, and
whether the original query parameters (access_token, fields, limit,
since) are attached.  The loop sends them on the first request only;
their concrete values do not influence the control flow under
verification, so only their presence is modelled. -/
structure Request where
  url : String
  withParams : Bool
deriving Repr, DecidableEq

/-- An HTTP response: status code and decoded JSON body. -/
structure HttpResponse where
  status : Nat
  body : Json
deriving Repr, DecidableEq

/-- requests.Response.raise_for_status raises for status codes in
[400, 600). -/
def raiseForStatus (s : Nat) : Bool := decide (400 ≤ s) && decide (s < 600)

/-- One page request (fetcher.py lines 77-83): issue the request; on a
5xx status retry the identical request once inline; then
raise_for_status.  The transport-level urllib3 Retry is invisible
against a deterministic server.  none models a raised HTTPError. -/
def doRequest (server : Request → HttpResponse) (req : Request) : Option Json :=
  let resp := server req
  let resp2 := if 500 ≤ resp.status then server req else resp
  if raiseForStatus resp2.status then none else some resp2.body

/-- Record extraction from one page body (fetcher.py lines 85-90):
page_items is data.get("data") for a dict body and the body itself
otherwise; a falsy page_items contributes nothing, a truthy one is
extended onto the result (none when not iterable). -/
def itemsOf (body : Json) : Option (List Json) :=
  let page_items := match body with | .obj kvs => objGetD kvs "data" .null | j => j
  if page_items.truthy then pyIter page_items else some []

/-- Cursor extraction from one page body (fetcher.py lines 93-94):
paging is data.get("paging", \x7b\x7d) for a dict body and the empty
dict otherwise; the next URL is paging.get("next"), which raises when
paging is a truthy non-dict (none). -/
def nextOf (body : Json) : Option Json :=
  let paging := match body with | .obj kvs => objGetD kvs "paging" (.obj []) | _ => .obj []
  pyGet paging "next"

/-- build_url (fetcher.py lines 57-60). -/
def build_url (base version form_id : String) : String :=
  base ++ "/" ++ version ++ "/" ++ form_id ++ "/leads"

/-- The while url loop of fetch_leads (fetcher.py lines 75-97), with
fuel bounding the number of iterations.  After the first request the
continuation URL from the response is followed with params set to None.
A truthy non-string URL makes requests raise (none); exhausted fuel on
a still-truthy URL is also none. -/
def fetchLoop (server : Request → HttpResponse) :
    Nat → Json → Bool → List Json → Option (List Json)
  | 0, url, _, acc => if url.truthy then none else some acc
  | fuel + 1, url, withParams, acc =>
    if url.truthy then
      match url with
      | .str u =>
        match doRequest server ⟨u, withParams⟩ with
        | none => none
        | some body =>
          match itemsOf body with
          | none => none
          | some items =>
            match nextOf body with
            | none => none
            | some nx => fetchLoop server fuel nx false (acc ++ items)
      | _ => none
    else some acc

/-- fetch_leads (fetcher.py lines 62-99): fail fast on a falsy access
token, then run the pagination loop from the built URL with the query
parameters attached to the first request only. -/
def fetch_leads (server : Request → HttpResponse) (access_token : String)
    (base version form_id : String) (fuel : Nat) : Option (List Json) :=
  if access_token == "" then none
  else fetchLoop server fuel (.str (build_url base version form_id)) true []

/-- One page of a well-formed cursor chain: the URL it is served at, the
body the server returns there, the record list the body carries, and the
continuation cursor the body carries. -/
structure ChainPage where
  url : String
  body : Json
  items : List Json
  next : Json
deriving Repr, DecidableEq

/-- The server serves the given pages as a cursor chain starting at url:
each page sits at the URL the previous cursor pointed to (the first at
the start URL, with parameters attached only there), answers with
status 200, and yields the recorded items and cursor; the cursor after
the last page is falsy. -/
def followsChain (server : Request → HttpResponse) :
    Json → Bool → List ChainPage → Bool
  | url, _, [] => !url.truthy
  | url, withParams, p :: rest =>
    decide (url = .str p.url) && decide (p.url ≠ "") &&
      decide (server ⟨p.url, withParams⟩ = ⟨200, p.body⟩) &&
      decide (itemsOf p.body = some p.items) && decide (nextOf p.body = some p.next) &&
      followsChain server p.next false rest

/-- load_sample (fetcher.py lines 172-177): the fixture file is modelled
as none when absent; a missing file yields the empty list, otherwise the
decoded JSON content is returned as is. -/
def load_sample (file : Option Json) : Json :=
  match file with
  | none => .arr []
  | some j => j

/-- write_output (fetcher.py lines 144-170), abstracted to the file it
produces: an empty batch writes nothing and returns, a non-empty batch
writes the serialized records. -/
def write_output (new_leads : List NormLead) : Option (List NormLead) :=
  if new_leads.isEmpty then none else some new_leads

/-- Observable outcome of one completed main run. -/
structure RunResult where
  exitCode : Nat
  outputFile : Option (List NormLead)
  dbAfter : LeadDB
  rawCount : Nat
  newCount : Nat
deriving Repr, DecidableEq

/-- main on the mock-sample path (fetcher.py lines 189-231 with
mock_sample set): the credential check is skipped, the sample is
loaded, the per-record loop runs, the output is written, counts are
logged and the process finishes with exit code 0.  none models an
uncaught exception. -/
def mainMock (file : Option Json) (db : LeadDB) (dry_run : Bool) : Option RunResult :=
  let rawsJ := load_sample file
  match pyIter rawsJ with
  | none => none
  | some raws =>
    match runLeads dry_run raws [] db with
    | none => none
    | some (out, dbFinal) => some ⟨0, write_output out, dbFinal, raws.length, out.length⟩

theorem LeadDB.is_seen_iff (db : LeadDB) (x : String) : db.is_seen x = true ↔ x ∈ db := by
  simp [LeadDB.is_seen, List.contains, List.elem_iff]

theorem LeadDB.mem_mark_seen (db : LeadDB) (lid x : String) :
    x ∈ db.mark_seen lid ↔ x ∈ db ∨ x = lid := by
  unfold LeadDB.mark_seen
  split
  · rename_i hc
    rw [show (List.contains db lid = true) = (db.is_seen lid = true) from rfl,
      LeadDB.is_seen_iff] at hc
    constructor
    · exact Or.inl
    · rintro (h | rfl)
      · exact h
      · exact hc
  · simp

theorem LeadDB.is_seen_mark_self (db : LeadDB) (lid : String) :
    (db.mark_seen lid).is_seen lid = true := by
  rw [LeadDB.is_seen_iff, LeadDB.mem_mark_seen]
  exact Or.inr rfl

theorem LeadDB.is_seen_mark_mono (db : LeadDB) (lid x : String)
    (h : db.is_seen x = true) : (db.mark_seen lid).is_seen x = true := by
  rw [LeadDB.is_seen_iff] at h
  rw [LeadDB.is_seen_iff, LeadDB.mem_mark_seen]
  exact Or.inl h

theorem LeadDB.is_seen_mark_other (db : LeadDB) (lid x : String) (h : x ≠ lid) :
    (db.mark_seen lid).is_seen x = db.is_seen x := by
  apply Bool.eq_iff_iff.mpr
  rw [LeadDB.is_seen_iff, LeadDB.is_seen_iff, LeadDB.mem_mark_seen]
  simp [h]

theorem LeadDB.mark_seen_of_seen (db : LeadDB) (lid : String)
    (h : db.is_seen lid = true) : db.mark_seen lid = db := by
  rw [LeadDB.is_seen_iff] at h
  unfold LeadDB.mark_seen
  split
  · rfl
  · rename_i hc
    rw [show (List.contains db lid = true) = (db.is_seen lid = true) from rfl,
      LeadDB.is_seen_iff] at hc
    exact absurd h hc

/-- The cons step of the pipeline loop, phrased through candidateLid:
a record is either skipped for validity, skipped as already seen, or
accepted and (unless dry_run) marked. -/
theorem runLeads_cons (d : Bool) (raw : Json) (rest : List Json)
    (acc : List NormLead) (db : LeadDB) :
    runLeads d (raw :: rest) acc db =
      match normalize_lead raw with
      | none => none
      | some n =>
        match candidateLid raw with
        | none => runLeads d rest acc db
        | some lid =>
          if db.is_seen lid then runLeads d rest acc db
          else runLeads d rest (acc ++ [n]) (if d then db else db.mark_seen lid) := by
  cases hn : normalize_lead raw with
  | none => simp [runLeads, hn]
  | some n =>
    simp only [runLeads, hn, candidateLid]
    cases hl : n.lead_id with
    | none => simp
    | some lid =>
      simp only []
      by_cases h1 : lid == ""
      · simp [h1]
      · simp only [h1, if_false, Bool.false_eq_true]
        by_cases h2 : !n.email.truthy && !n.phone.truthy
        · simp [h2]
        · simp only [h2, if_false, Bool.false_eq_true]

/-- Step lemma: a record whose normalization raises aborts the run. -/
theorem runLeads_step_err (d : Bool) (raw : Json) (rest : List Json) (acc : List NormLead)
    (db : LeadDB) (hn : normalize_lead raw = none) :
    runLeads d (raw :: rest) acc db = none := by
  rw [runLeads_cons]; simp only [hn]

/-- Step lemma: a record failing a validity test is skipped. -/
theorem runLeads_step_skip (d : Bool) (raw : Json) (rest : List Json) (acc : List NormLead)
    (db : LeadDB) (n : NormLead) (hn : normalize_lead raw = some n)
    (hc : candidateLid raw = none) :
    runLeads d (raw :: rest) acc db = runLeads d rest acc db := by
  rw [runLeads_cons]; simp only [hn, hc]

/-- Step lemma: a valid record whose identifier is already stored is
skipped without re-marking. -/
theorem runLeads_step_seen (d : Bool) (raw : Json) (rest : List Json) (acc : List NormLead)
    (db : LeadDB) (n : NormLead) (lid : String) (hn : normalize_lead raw = some n)
    (hc : candidateLid raw = some lid) (hs : db.is_seen lid = true) :
    runLeads d (raw :: rest) acc db = runLeads d rest acc db := by
  rw [runLeads_cons]; simp only [hn, hc, hs, if_true]

/-- Step lemma: a valid unseen record is appended and, unless dry_run,
marked. -/
theorem runLeads_step_accept (d : Bool) (raw : Json) (rest : List Json) (acc : List NormLead)
    (db : LeadDB) (n : NormLead) (lid : String) (hn : normalize_lead raw = some n)
    (hc : candidateLid raw = some lid) (hs : db.is_seen lid = false) :
    runLeads d (raw :: rest) acc db =
      runLeads d rest (acc ++ [n]) (if d then db else db.mark_seen lid) := by
  rw [runLeads_cons]; simp only [hn, hc, hs, Bool.false_eq_true, if_false]

/-- A completed loop run normalized every input record without raising. -/
theorem runLeads_norm_isSome (d : Bool) :
    ∀ (l : List Json) (acc : List NormLead) (db : LeadDB) (r : List NormLead × LeadDB),
      runLeads d l acc db = some r → ∀ raw ∈ l, (normalize_lead raw).isSome = true := by
  intro l
  induction l with
  | nil => intro acc db r h raw hm; cases hm
  | cons head rest ih =>
    intro acc db r h raw hm
    cases hn : normalize_lead head with
    | none => rw [runLeads_step_err d head rest acc db hn] at h; cases h
    | some n =>
      rcases List.mem_cons.mp hm with rfl | hm2
      · simp [hn]
      · cases hc : candidateLid head with
        | none =>
          rw [runLeads_step_skip d head rest acc db n hn hc] at h
          exact ih _ _ _ h raw hm2
        | some lid =>
          cases hs : db.is_seen lid with
          | true =>
            rw [runLeads_step_seen d head rest acc db n lid hn hc hs] at h
            exact ih _ _ _ h raw hm2
          | false =>
            rw [runLeads_step_accept d head rest acc db n lid hn hc hs] at h
            exact ih _ _ _ h raw hm2

/-- The loop only ever adds identifiers to the store. -/
theorem runLeads_db_mono (d : Bool) :
    ∀ (l : List Json) (acc : List NormLead) (db : LeadDB) (out : List NormLead) (db2 : LeadDB),
      runLeads d l acc db = some (out, db2) →
      ∀ x, db.is_seen x = true → db2.is_seen x = true := by
  intro l
  induction l with
  | nil =>
    intro acc db out db2 h x hx
    simp only [runLeads, Option.some.injEq, Prod.mk.injEq] at h
    rw [← h.2]; exact hx
  | cons head rest ih =>
    intro acc db out db2 h x hx
    cases hn : normalize_lead head with
    | none => rw [runLeads_step_err d head rest acc db hn] at h; cases h
    | some n =>
      cases hc : candidateLid head with
      | none =>
        rw [runLeads_step_skip d head rest acc db n hn hc] at h
        exact ih _ _ _ _ h x hx
      | some lid =>
        cases hs : db.is_seen lid with
        | true =>
          rw [runLeads_step_seen d head rest acc db n lid hn hc hs] at h
          exact ih _ _ _ _ h x hx
        | false =>
          rw [runLeads_step_accept d head rest acc db n lid hn hc hs] at h
          refine ih _ _ _ _ h x ?_
          cases d with
          | false => simpa using LeadDB.is_seen_mark_mono db lid x hx
          | true => simpa using hx

/-- After a completed non-dry run, every record that passes the validity
tests has its identifier in the store. -/
theorem runLeads_covers :
    ∀ (l : List Json) (acc : List NormLead) (db : LeadDB) (out : List NormLead) (db2 : LeadDB),
      runLeads false l acc db = some (out, db2) →
      ∀ raw ∈ l, ∀ lid, candidateLid raw = some lid → db2.is_seen lid = true := by
  intro l
  induction l with
  | nil => intro acc db out db2 h raw hm; cases hm
  | cons head rest ih =>
    intro acc db out db2 h raw hm lid hlid
    cases hn : normalize_lead head with
    | none => rw [runLeads_step_err false head rest acc db hn] at h; cases h
    | some n =>
      rcases List.mem_cons.mp hm with rfl | hm2
      · cases hs : db.is_seen lid with
        | true =>
          rw [runLeads_step_seen false raw rest acc db n lid hn hlid hs] at h
          exact runLeads_db_mono false rest _ _ _ _ h lid hs
        | false =>
          rw [runLeads_step_accept false raw rest acc db n lid hn hlid hs] at h
          refine runLeads_db_mono false rest _ _ _ _ h lid ?_
          simpa using LeadDB.is_seen_mark_self db lid
      · cases hc : candidateLid head with
        | none =>
          rw [runLeads_step_skip false head rest acc db n hn hc] at h
          exact ih _ _ _ _ h raw hm2 lid hlid
        | some lid2 =>
          cases hs : db.is_seen lid2 with
          | true =>
            rw [runLeads_step_seen false head rest acc db n lid2 hn hc hs] at h
            exact ih _ _ _ _ h raw hm2 lid hlid
          | false =>
            rw [runLeads_step_accept false head rest acc db n lid2 hn hc hs] at h
            exact ih _ _ _ _ h raw hm2 lid hlid

/-- When every valid record of the input is already stored and every
record normalizes, the loop accepts nothing and changes nothing. -/
theorem runLeads_allSeen (d : Bool) :
    ∀ (l : List Json) (acc : List NormLead) (db : LeadDB),
      (∀ raw ∈ l, (normalize_lead raw).isSome = true) →
      (∀ raw ∈ l, ∀ lid, candidateLid raw = some lid → db.is_seen lid = true) →
      runLeads d l acc db = some (acc, db) := by
  intro l
  induction l with
  | nil => intro acc db _ _; rfl
  | cons head rest ih =>
    intro acc db hnorm hseen
    obtain ⟨n, hn⟩ := Option.isSome_iff_exists.mp (hnorm head (List.mem_cons_self _ _))
    cases hc : candidateLid head with
    | none =>
      rw [runLeads_step_skip d head rest acc db n hn hc]
      exact ih acc db (fun raw hm => hnorm raw (List.mem_cons_of_mem _ hm))
        (fun raw hm => hseen raw (List.mem_cons_of_mem _ hm))
    | some lid =>
      rw [runLeads_step_seen d head rest acc db n lid hn hc
        (hseen head (List.mem_cons_self _ _) lid hc)]
      exact ih acc db (fun raw hm => hnorm raw (List.mem_cons_of_mem _ hm))
        (fun raw hm => hseen raw (List.mem_cons_of_mem _ hm))

/-- C1: for every list of raw records, running the pipeline to
completion once with dry_run off against a seen-store, and then running
it a second time with the same input against the resulting store,
yields zero accepted records on the second run (and leaves the store as
it was after the first run). -/
theorem pipeline_idempotent_second_run (raws : List Json) (db0 : LeadDB)
    (out1 : List NormLead) (db1 : LeadDB)
    (h : mainPipeline false raws db0 = some (out1, db1)) :
    mainPipeline false raws db1 = some ([], db1) := by
  unfold mainPipeline at h ⊢
  exact runLeads_allSeen false raws [] db1
    (runLeads_norm_isSome false raws [] db0 _ h)
    (fun raw hm lid hlid => runLeads_covers raws [] db0 out1 db1 h raw hm lid hlid)

/-- A one-record input used to instantiate the pipeline theorems. -/
def c1Raw : Json := .obj [("id", .str "1"), ("email", .str "a@b.c")]

/-- The normalization of c1Raw. -/
def c1Norm : NormLead := ⟨some "1", .null, .null, .str "a@b.c", .null, c1Raw⟩

theorem pipeline_idempotent_second_run_witness :
    mainPipeline false [c1Raw] ["1"] = some ([], ["1"]) :=
  pipeline_idempotent_second_run [c1Raw] [] [c1Norm] ["1"] rfl

/-- C2: a record whose normalized identifier is empty or absent, or
whose normalized email and phone are both falsy, is never appended to
the accepted batch and never marked seen; the loop simply continues
with the remaining records, whatever the store state and mode. -/
theorem invalid_record_skipped (d : Bool) (raw : Json) (rest : List Json)
    (acc : List NormLead) (db : LeadDB) (n : NormLead)
    (hn : normalize_lead raw = some n)
    (hbad : optTruthy n.lead_id = false ∨
      (n.email.truthy = false ∧ n.phone.truthy = false)) :
    runLeads d (raw :: rest) acc db = runLeads d rest acc db := by
  apply runLeads_step_skip d raw rest acc db n hn
  unfold candidateLid
  rw [hn]
  simp only []
  cases hl : n.lead_id with
  | none => rfl
  | some lid =>
    rcases hbad with hb | hb
    · rw [hl] at hb
      simp only [optTruthy, bne_eq_false_iff_eq] at hb
      simp [hb]
    · by_cases h0 : (lid == "") = true
      · simp [h0]
      · simp [h0, hb.1, hb.2]

/-- A record with an id but no contact channel. -/
def c2Raw : Json := .obj [("id", .str "x")]

/-- The normalization of c2Raw. -/
def c2Norm : NormLead := ⟨some "x", .null, .null, .null, .null, c2Raw⟩

theorem invalid_record_skipped_witness :
    runLeads false [c2Raw] [] [] = runLeads false [] [] [] :=
  invalid_record_skipped false c2Raw [] [] [] c2Norm rfl
    (Or.inr (by constructor <;> rfl))

/-- Membership characterization of a store reached by a sequence of
operations. -/
theorem applyOps_seen : ∀ (ops : List DbOp) (db : LeadDB) (i : String),
    (applyOps ops db).is_seen i = true ↔ (DbOp.mark i ∈ ops ∨ db.is_seen i = true) := by
  intro ops
  induction ops with
  | nil => intro db i; simp [applyOps]
  | cons op rest ih =>
    intro db i
    cases op with
    | check j => simp [applyOps, ih]
    | mark j =>
      rw [show applyOps (DbOp.mark j :: rest) db = applyOps rest (db.mark_seen j) from rfl]
      rw [ih]
      constructor
      · rintro (hm | hs)
        · exact Or.inl (List.mem_cons_of_mem _ hm)
        · rw [LeadDB.is_seen_iff, LeadDB.mem_mark_seen] at hs
          rcases hs with h | rfl
          · exact Or.inr (by rw [LeadDB.is_seen_iff]; exact h)
          · exact Or.inl (List.mem_cons_self _ _)
      · rintro (hm | hs)
        · rcases List.mem_cons.mp hm with he | hm2
          · injection he with he
            subst he
            exact Or.inr (LeadDB.is_seen_mark_self db i)
          · exact Or.inl hm2
        · exact Or.inr (LeadDB.is_seen_mark_mono db j i hs)

/-- C3: over any finite sequence of store operations on a freshly
constructed store, the existence check answers true exactly for the
identifiers marked earlier in the sequence (false for every unknown
identifier), and marking an already-present identifier leaves the store
unchanged. -/
theorem seen_store_semantics (ops : List DbOp) (i : String) :
    ((applyOps ops []).is_seen i = true ↔ DbOp.mark i ∈ ops) ∧
      (∀ db : LeadDB, db.is_seen i = true → db.mark_seen i = db) := by
  constructor
  · rw [applyOps_seen]
    simp [LeadDB.is_seen]
  · intro db h
    exact LeadDB.mark_seen_of_seen db i h

theorem seen_store_semantics_witness :
    ((applyOps [DbOp.mark "a"] []).is_seen "a" = true) ∧
      (LeadDB.mark_seen ["a"] "a" = ["a"]) :=
  ⟨(seen_store_semantics [DbOp.mark "a"] "a").1.mpr (by simp),
   (seen_store_semantics [DbOp.mark "a"] "a").2 ["a"] (by rfl)⟩

/-- A truthy email accumulator survives the rest of the field pass. -/
theorem fieldPass_stick_email :
    ∀ (fields : List Json) (name email phone : Option String)
      (res : Option String × Option String × Option String),
      fieldPass fields name email phone = some res →
      optTruthy email = true → res.2.1 = email := by
  intro fields
  induction fields with
  | nil =>
    intro name email phone res h _
    simp only [fieldPass, Option.some.injEq] at h
    rw [← h]
  | cons field rest ih =>
    intro name email phone res h he
    simp only [fieldPass] at h
    repeat' split at h
    all_goals first
      | exact Option.noConfusion h
      | exact ih _ _ _ _ h he
      | exact absurd he (by assumption)

/-- A truthy name accumulator survives the rest of the field pass. -/
theorem fieldPass_stick_name :
    ∀ (fields : List Json) (name email phone : Option String)
      (res : Option String × Option String × Option String),
      fieldPass fields name email phone = some res →
      optTruthy name = true → res.1 = name := by
  intro fields
  induction fields with
  | nil =>
    intro name email phone res h _
    simp only [fieldPass, Option.some.injEq] at h
    rw [← h]
  | cons field rest ih =>
    intro name email phone res h hn
    simp only [fieldPass] at h
    repeat' split at h
    all_goals first
      | exact Option.noConfusion h
      | exact ih _ _ _ _ h hn
      | exact absurd hn (by assumption)

/-- A truthy phone accumulator survives the rest of the field pass. -/
theorem fieldPass_stick_phone :
    ∀ (fields : List Json) (name email phone : Option String)
      (res : Option String × Option String × Option String),
      fieldPass fields name email phone = some res →
      optTruthy phone = true → res.2.2 = phone := by
  intro fields
  induction fields with
  | nil =>
    intro name email phone res h _
    simp only [fieldPass, Option.some.injEq] at h
    rw [← h]
  | cons field rest ih =>
    intro name email phone res h hp
    simp only [fieldPass] at h
    repeat' split at h
    all_goals first
      | exact Option.noConfusion h
      | exact ih _ _ _ _ h hp
      | exact absurd hp (by assumption)

/-- The two-entry field list of the precedence example. -/
def c4Raw : Json := .obj [("field_data", .arr [
  .obj [("name", .str "Email Address"), ("values", .arr [.str "A@X.com "])],
  .obj [("name", .str "email2"), ("values", .arr [.str "b@y.com"])]])]

/-- C4: field-data entries are classified by substring containment on
the lower-cased entry name and the first non-empty assignment to a
target attribute sticks, earlier entries taking precedence; in
particular the entries named Email Address and email2 normalize to the
email a@x.com, first match winning, trimmed and lower-cased. -/
theorem field_list_precedence :
    ((normalize_lead c4Raw).map NormLead.email = some (.str "a@x.com")) ∧
      (∀ (fields : List Json) (name email phone : Option String)
        (res : Option String × Option String × Option String),
        fieldPass fields name email phone = some res →
        (optTruthy email = true → res.2.1 = email) ∧
        (optTruthy name = true → res.1 = name) ∧
        (optTruthy phone = true → res.2.2 = phone)) := by
  constructor
  · rfl
  · intro fields name email phone res h
    exact ⟨fieldPass_stick_email fields name email phone res h,
      fieldPass_stick_name fields name email phone res h,
      fieldPass_stick_phone fields name email phone res h⟩

/-- A later email entry that would otherwise overwrite. -/
def c4LateField : List Json := [.obj [("name", .str "email2"), ("values", .arr [.str "b@y.com"])]]

theorem field_list_precedence_witness :
    ((none, some "a@x.com", none) :
        Option String × Option String × Option String).2.1 = some "a@x.com" :=
  (field_list_precedence.2 c4LateField none (some "a@x.com") none
    (none, some "a@x.com", none) rfl).1 rfl

/-- A record whose email field value is the number 1: in Python this
reaches val.strip() with an int and raises AttributeError. -/
def c5Bad : Json := .obj [("id", .str "9"), ("field_data", .arr [
  .obj [("name", .str "email"), ("values", .arr [.num 1])]])]

/-- C5 counterexample: normalize_lead does fail on a malformed record;
a numeric field value raises instead of yielding an absent field. -/
theorem normalize_lead_can_fail : normalize_lead c5Bad = none := rfl

/-- A field-data entry on which the loop body cannot raise: its key
and first value are computable (entry is a dict with a string-or-falsy
name and a sequence-or-falsy values), and the value, when truthy, is a
string. -/
def wellShapedField (f : Json) : Bool :=
  (fieldKey f).isSome &&
    (match fieldVal f with
     | some val => !val.truthy || (asStr val).isSome
     | none => false)

/-- A record on which normalize_lead cannot raise: a dict whose
field-data iterable is a list of well-shaped entries. -/
def wellShaped (raw : Json) : Bool :=
  match raw with
  | .obj kvs =>
    match fieldListOf kvs with
    | some fs => fs.all wellShapedField
    | none => false
  | _ => false

/-- The field pass terminates without raising on well-shaped entries. -/
theorem fieldPass_total_of_wellShaped :
    ∀ (fields : List Json) (name email phone : Option String),
      (∀ f ∈ fields, wellShapedField f = true) →
      (fieldPass fields name email phone).isSome = true := by
  intro fields
  induction fields with
  | nil => intro name email phone _; rfl
  | cons field rest ih =>
    intro name email phone hws
    have hf := hws field (List.mem_cons_self _ _)
    have hrest : ∀ f ∈ rest, wellShapedField f = true :=
      fun f hm => hws f (List.mem_cons_of_mem _ hm)
    simp only [wellShapedField, Bool.and_eq_true] at hf
    obtain ⟨hkey, hval⟩ := hf
    obtain ⟨key, hk⟩ := Option.isSome_iff_exists.mp hkey
    cases hv : fieldVal field with
    | none => rw [hv] at hval; simp at hval
    | some val =>
      rw [hv] at hval
      simp only [] at hval
      simp only [fieldPass, hk, hv]
      cases hvt : val.truthy with
      | false => simpa [hvt] using ih name email phone hrest
      | true =>
        rw [hvt] at hval
        simp only [Bool.not_true, Bool.false_or] at hval
        obtain ⟨s, hs⟩ := Option.isSome_iff_exists.mp hval
        simp only [hvt, Bool.not_true, Bool.false_eq_true, if_false, hs]
        repeat' split
        all_goals exact ih _ _ _ hrest

/-- C5 amended: normalize_lead is a pure total function on well-shaped
records, and missing data yields absent fields rather than an error; on
other records (for example a numeric field value) it raises, refuting
the unconditional never-fails reading. -/
theorem normalize_lead_total_wellShaped :
    (∀ raw, wellShaped raw = true → (normalize_lead raw).isSome = true) ∧
      normalize_lead (.obj []) = some ⟨none, .null, .null, .null, .null, .obj []⟩ := by
  constructor
  · intro raw hws
    cases raw with
    | obj kvs =>
      simp only [wellShaped] at hws
      cases hfl : fieldListOf kvs with
      | none => rw [hfl] at hws; cases hws
      | some fs =>
        rw [hfl] at hws
        simp only [List.all_eq_true] at hws
        have := fieldPass_total_of_wellShaped fs none none none hws
        obtain ⟨⟨n2, e2, p2⟩, hfp⟩ := Option.isSome_iff_exists.mp this
        simp [normalize_lead, hfl, hfp]
    | null => simp [wellShaped] at hws
    | bool b => simp [wellShaped] at hws
    | num n => simp [wellShaped] at hws
    | str s => simp [wellShaped] at hws
    | arr xs => simp [wellShaped] at hws
  · rfl

theorem normalize_lead_total_wellShaped_witness :
    (normalize_lead c4Raw).isSome = true :=
  normalize_lead_total_wellShaped.1 c4Raw rfl

/-- C6: when email, phone or name is still falsy after the field-data
pass, normalize_lead fills it from the direct top-level keys, tried in
order email then email_address, phone then phone_number, name then
full_name, and the fallback value is taken as-is, with no trimming or
lower-casing applied. -/
theorem fallback_top_level_keys (kvs : List (String × Json)) (fields : List Json)
    (name email phone : Option String) (res : NormLead)
    (hf : fieldListOf kvs = some fields)
    (hp : fieldPass fields none none none = some (name, email, phone))
    (hr : normalize_lead (.obj kvs) = some res) :
    (optTruthy email = false →
      res.email = pyOr (objGetD kvs "email" .null) (objGetD kvs "email_address" .null)) ∧
    (optTruthy phone = false →
      res.phone = pyOr (objGetD kvs "phone" .null) (objGetD kvs "phone_number" .null)) ∧
    (optTruthy name = false →
      res.name = pyOr (objGetD kvs "name" .null) (objGetD kvs "full_name" .null)) := by
  unfold normalize_lead at hr
  simp only [] at hr
  rw [hf] at hr
  simp only [] at hr
  rw [hp] at hr
  simp only [Option.some.injEq] at hr
  subst hr
  have hfalsy : ∀ o : Option String, optTruthy o = false → (optStrJson o).truthy = false := by
    intro o ho
    cases o with
    | none => rfl
    | some s => simpa [optStrJson, Json.truthy, optTruthy] using ho
  refine ⟨fun he => ?_, fun hph => ?_, fun hnm => ?_⟩
  · simp only [pyOr, hfalsy email he, Bool.false_eq_true, if_false]
  · simp only [pyOr, hfalsy phone hph, Bool.false_eq_true, if_false]
  · simp only [pyOr, hfalsy name hnm, Bool.false_eq_true, if_false]

/-- A record with no field list and only a top-level email_address. -/
def c6Kvs : List (String × Json) := [("id", .str "1"), ("email_address", .str " C@Z.com ")]

/-- The normalization of the c6Kvs record. -/
def c6Res : NormLead := ⟨some "1", .null, .null, .str " C@Z.com ", .null, .obj c6Kvs⟩

theorem fallback_top_level_keys_witness :
    c6Res.email = pyOr (objGetD c6Kvs "email" .null) (objGetD c6Kvs "email_address" .null) :=
  (fallback_top_level_keys c6Kvs [] none none none c6Res rfl rfl rfl).1 rfl

/-- A 200 response passes the inline 5xx guard and raise_for_status
untouched. -/
theorem doRequest_ok (server : Request → HttpResponse) (req : Request) (body : Json)
    (h : server req = ⟨200, body⟩) : doRequest server req = some body := by
  unfold doRequest
  rw [h]
  simp [raiseForStatus]

/-- Following a well-formed cursor chain accumulates the concatenation
of the items of its pages, issuing every follow-up without parameters. -/
theorem fetchLoop_chain (server : Request → HttpResponse) :
    ∀ (chain : List ChainPage) (fuel : Nat) (url : Json) (w : Bool) (acc : List Json),
      followsChain server url w chain = true → chain.length ≤ fuel →
      fetchLoop server fuel url w acc = some (acc ++ (chain.map ChainPage.items).flatten) := by
  intro chain
  induction chain with
  | nil =>
    intro fuel url w acc hch _
    simp only [followsChain, Bool.not_eq_true'] at hch
    cases fuel with
    | zero => simp [fetchLoop, hch]
    | succ f => simp [fetchLoop, hch]
  | cons p rest ih =>
    intro fuel url w acc hch hlen
    simp only [followsChain, Bool.and_eq_true, decide_eq_true_eq] at hch
    obtain ⟨⟨⟨⟨⟨hurl, hne⟩, hsrv⟩, hitems⟩, hnext⟩, hrest⟩ := hch
    cases fuel with
    | zero => exact absurd hlen (by simp)
    | succ f =>
      subst hurl
      have ht : (Json.str p.url).truthy = true := by
        simpa [Json.truthy] using hne
      simp only [fetchLoop, ht, if_true, doRequest_ok server _ _ hsrv, hitems, hnext]
      rw [ih f p.next false (acc ++ p.items) hrest (by simpa using hlen)]
      simp

/-- C7: for every chain of response pages linked by continuation
cursors, fetch_leads returns the in-order concatenation of the pages
record lists (a falsy or missing list counting as zero records), issues
every follow-up request directly against the cursor URL with no query
parameters re-attached, and stops when no cursor is returned. -/
theorem fetch_pagination_concat (server : Request → HttpResponse)
    (base version form_id access_token : String) (chain : List ChainPage) (fuel : Nat)
    (htok : access_token ≠ "")
    (hch : followsChain server (.str (build_url base version form_id)) true chain = true)
    (hfuel : chain.length ≤ fuel) :
    fetch_leads server access_token base version form_id fuel =
      some ((chain.map ChainPage.items).flatten) := by
  unfold fetch_leads
  rw [if_neg (by simpa using htok)]
  simpa using fetchLoop_chain server chain fuel (.str (build_url base version form_id))
    true [] hch hfuel

/-- First page URL of the three-page fixture. -/
def c7U1 : String := build_url "https://graph.facebook.com" "v16.0" "F"

/-- Three chained page bodies; the last carries no paging key. -/
def c7Body1 : Json :=
  .obj [("data", .arr [.str "r1", .str "r2"]), ("paging", .obj [("next", .str "u2")])]

def c7Body2 : Json :=
  .obj [("data", .arr [.str "r3"]), ("paging", .obj [("next", .str "u3")])]

def c7Body3 : Json := .obj [("data", .arr [.str "r4"])]

/-- A server that serves the three fixture pages: the first only with
parameters attached, the follow-ups only at the bare cursor URLs. -/
def c7Server : Request → HttpResponse := fun req =>
  if req = ⟨c7U1, true⟩ then ⟨200, c7Body1⟩
  else if req = ⟨"u2", false⟩ then ⟨200, c7Body2⟩
  else if req = ⟨"u3", false⟩ then ⟨200, c7Body3⟩
  else ⟨404, .null⟩

/-- The fixture chain description. -/
def c7Chain : List ChainPage :=
  [⟨c7U1, c7Body1, [.str "r1", .str "r2"], .str "u2"⟩,
   ⟨"u2", c7Body2, [.str "r3"], .str "u3"⟩,
   ⟨"u3", c7Body3, [.str "r4"], .null⟩]

theorem fetch_pagination_concat_witness :
    fetch_leads c7Server "tok" "https://graph.facebook.com" "v16.0" "F" 3 =
      some [.str "r1", .str "r2", .str "r3", .str "r4"] := by
  have h := fetch_pagination_concat c7Server "https://graph.facebook.com" "v16.0" "F"
    "tok" c7Chain 3 (by decide) (by decide) (by decide)
  simpa [c7Chain] using h

/-- C8 counterexample: with two input records normalizing to the same
identifier, a dry run accepts both while a normal run accepts only the
first, so the dry-run batch is not the batch a normal run produces. -/
theorem dry_run_batch_differs :
    (mainPipeline true [c1Raw, c1Raw] []).map Prod.fst ≠
      (mainPipeline false [c1Raw, c1Raw] []).map Prod.fst := by
  decide

/-- A dry run never touches the store. -/
theorem runLeads_dry_db :
    ∀ (l : List Json) (acc : List NormLead) (db : LeadDB) (out : List NormLead) (db2 : LeadDB),
      runLeads true l acc db = some (out, db2) → db2 = db := by
  intro l
  induction l with
  | nil =>
    intro acc db out db2 h
    simp only [runLeads, Option.some.injEq, Prod.mk.injEq] at h
    exact h.2.symm
  | cons head rest ih =>
    intro acc db out db2 h
    cases hn : normalize_lead head with
    | none => rw [runLeads_step_err true head rest acc db hn] at h; cases h
    | some n =>
      cases hc : candidateLid head with
      | none =>
        rw [runLeads_step_skip true head rest acc db n hn hc] at h
        exact ih _ _ _ _ h
      | some lid =>
        cases hs : db.is_seen lid with
        | true =>
          rw [runLeads_step_seen true head rest acc db n lid hn hc hs] at h
          exact ih _ _ _ _ h
        | false =>
          rw [runLeads_step_accept true head rest acc db n lid hn hc hs] at h
          simp only [if_true] at h
          exact ih _ _ _ _ h

/-- When the candidate identifiers of the input are pairwise distinct
and agree on visibility between the two stores, a dry run and a normal
run accept the same batch. -/
theorem runLeads_dry_agree :
    ∀ (l : List Json) (acc : List NormLead) (db dbf : LeadDB)
      (o1 : List NormLead) (d1 : LeadDB) (o2 : List NormLead) (d2 : LeadDB),
      (∀ lid ∈ l.filterMap candidateLid, dbf.is_seen lid = db.is_seen lid) →
      (l.filterMap candidateLid).Nodup →
      runLeads true l acc db = some (o1, d1) →
      runLeads false l acc dbf = some (o2, d2) → o1 = o2 := by
  intro l
  induction l with
  | nil =>
    intro acc db dbf o1 d1 o2 d2 _ _ h1 h2
    simp only [runLeads, Option.some.injEq, Prod.mk.injEq] at h1 h2
    rw [← h1.1, ← h2.1]
  | cons head rest ih =>
    intro acc db dbf o1 d1 o2 d2 hsim hnodup h1 h2
    cases hn : normalize_lead head with
    | none => rw [runLeads_step_err true head rest acc db hn] at h1; cases h1
    | some n =>
      cases hc : candidateLid head with
      | none =>
        rw [runLeads_step_skip true head rest acc db n hn hc] at h1
        rw [runLeads_step_skip false head rest acc dbf n hn hc] at h2
        rw [List.filterMap_cons_none hc] at hsim hnodup
        exact ih acc db dbf o1 d1 o2 d2 hsim hnodup h1 h2
      | some lid =>
        rw [List.filterMap_cons_some hc] at hsim hnodup
        have heq : dbf.is_seen lid = db.is_seen lid :=
          hsim lid (List.mem_cons_self _ _)
        have hsim2 : ∀ l2 ∈ rest.filterMap candidateLid, dbf.is_seen l2 = db.is_seen l2 :=
          fun l2 hm => hsim l2 (List.mem_cons_of_mem _ hm)
        have hnotin : lid ∉ rest.filterMap candidateLid := (List.nodup_cons.mp hnodup).1
        have hnodup2 : (rest.filterMap candidateLid).Nodup := (List.nodup_cons.mp hnodup).2
        cases hs : db.is_seen lid with
        | true =>
          rw [runLeads_step_seen true head rest acc db n lid hn hc hs] at h1
          rw [runLeads_step_seen false head rest acc dbf n lid hn hc (heq.trans hs)] at h2
          exact ih acc db dbf o1 d1 o2 d2 hsim2 hnodup2 h1 h2
        | false =>
          rw [runLeads_step_accept true head rest acc db n lid hn hc hs] at h1
          rw [runLeads_step_accept false head rest acc dbf n lid hn hc (heq.trans hs)] at h2
          simp only [if_true, Bool.false_eq_true, if_false] at h1 h2
          refine ih (acc ++ [n]) db (dbf.mark_seen lid) o1 d1 o2 d2 ?_ hnodup2 h1 h2
          intro l2 hm
          have hne : l2 ≠ lid := fun he => hnotin (he ▸ hm)
          rw [LeadDB.is_seen_mark_other dbf lid l2 hne]
          exact hsim2 l2 hm

/-- C8 amended: a dry run writes the same accepted batch as a normal
run provided no two input records pass validation under the same
identifier (the store state is unchanged by the dry run in all cases);
with duplicate identifiers in one input the batches differ, because the
normal run marks at acceptance and the dry run does not. -/
theorem dry_run_frame (raws : List Json) (db : LeadDB)
    (out_t : List NormLead) (db_t : LeadDB)
    (ht : mainPipeline true raws db = some (out_t, db_t)) :
    db_t = db ∧
      ∀ out_f db_f, (raws.filterMap candidateLid).Nodup →
        mainPipeline false raws db = some (out_f, db_f) → out_t = out_f := by
  constructor
  · exact runLeads_dry_db raws [] db out_t db_t ht
  · intro out_f db_f hnod hf
    exact runLeads_dry_agree raws [] db db out_t db_t out_f db_f
      (fun _ _ => rfl) hnod ht hf

theorem dry_run_frame_witness :
    ([] : LeadDB) = ([] : LeadDB) ∧ [c1Norm] = [c1Norm] :=
  ⟨(dry_run_frame [c1Raw] [] [c1Norm] [] rfl).1,
   (dry_run_frame [c1Raw] [] [c1Norm] [] rfl).2 [c1Norm] ["1"] (by decide) rfl⟩

/-- A valid record is accepted under exactly its candidate identifier. -/
theorem candidateLid_lead_id (raw : Json) (n : NormLead) (lid : String)
    (hn : normalize_lead raw = some n) (hc : candidateLid raw = some lid) :
    n.lead_id = some lid := by
  unfold candidateLid at hc
  rw [hn] at hc
  simp only [] at hc
  cases hl : n.lead_id with
  | none => rw [hl] at hc; cases hc
  | some l2 =>
    rw [hl] at hc
    by_cases h0 : (l2 == "") = true
    · simp [h0] at hc
    · simp only [h0, Bool.false_eq_true, if_false] at hc
      by_cases h1 : (!n.email.truthy && !n.phone.truthy) = true
      · simp [h1] at hc
      · simp only [h1, Bool.false_eq_true, if_false, Option.some.injEq] at hc
        rw [hc]

/-- In a non-dry run, the accepted identifiers stay distinct: every
accepted identifier is in the store from the moment of acceptance, and
acceptance requires not being in the store. -/
theorem runLeads_nodup :
    ∀ (l : List Json) (acc : List NormLead) (db : LeadDB)
      (out : List NormLead) (db2 : LeadDB),
      runLeads false l acc db = some (out, db2) →
      (∀ m ∈ acc, ∀ lid, m.lead_id = some lid → db.is_seen lid = true) →
      (acc.map NormLead.lead_id).Nodup →
      (out.map NormLead.lead_id).Nodup := by
  intro l
  induction l with
  | nil =>
    intro acc db out db2 h hinv hnd
    simp only [runLeads, Option.some.injEq, Prod.mk.injEq] at h
    rw [← h.1]; exact hnd
  | cons head rest ih =>
    intro acc db out db2 h hinv hnd
    cases hn : normalize_lead head with
    | none => rw [runLeads_step_err false head rest acc db hn] at h; cases h
    | some n =>
      cases hc : candidateLid head with
      | none =>
        rw [runLeads_step_skip false head rest acc db n hn hc] at h
        exact ih _ _ _ _ h hinv hnd
      | some lid =>
        cases hs : db.is_seen lid with
        | true =>
          rw [runLeads_step_seen false head rest acc db n lid hn hc hs] at h
          exact ih _ _ _ _ h hinv hnd
        | false =>
          rw [runLeads_step_accept false head rest acc db n lid hn hc hs] at h
          simp only [Bool.false_eq_true, if_false] at h
          have hlid : n.lead_id = some lid := candidateLid_lead_id head n lid hn hc
          refine ih _ _ _ _ h ?_ ?_
          · intro m hm lid2 hm2
            rcases List.mem_append.mp hm with hma | hmb
            · exact LeadDB.is_seen_mark_mono db lid lid2 (hinv m hma lid2 hm2)
            · rcases List.mem_singleton.mp hmb with rfl
              rw [hm2] at hlid
              injection hlid.symm with he
              subst he
              exact LeadDB.is_seen_mark_self db lid
          · rw [List.map_append]
            rw [List.nodup_append]
            refine ⟨hnd, List.nodup_singleton _, ?_⟩
            intro x hx
            simp only [List.map_cons, List.map_nil, List.mem_singleton]
            intro hxe
            obtain ⟨m, hm, hmx⟩ := List.mem_map.mp hx
            rw [hxe, hlid] at hmx
            have := hinv m hm lid hmx
            rw [this] at hs
            cases hs

/-- C9: with dry_run off, each distinct identifier is accepted at most
once per run, even when several records of one input normalize to the
same identifier: the identifier is marked at acceptance, so the list of
accepted identifiers of a completed run has no duplicates. -/
theorem accepted_ids_nodup (raws : List Json) (db : LeadDB)
    (out : List NormLead) (db2 : LeadDB)
    (h : mainPipeline false raws db = some (out, db2)) :
    (out.map NormLead.lead_id).Nodup :=
  runLeads_nodup raws [] db out db2 h (by simp) (by simp)

theorem accepted_ids_nodup_witness :
    (([c1Norm].map NormLead.lead_id)).Nodup :=
  accepted_ids_nodup [c1Raw, c1Raw] [] [c1Norm] ["1"] rfl

/-- C10: when the sample fixture file is absent, load_sample yields the
empty list and the mock-sample run completes normally: zero raw
records, zero accepted records, no output file written, the store
untouched, exit code 0. -/
theorem mock_missing_sample_run (db : LeadDB) (dry_run : Bool) :
    mainMock none db dry_run = some ⟨0, none, db, 0, 0⟩ := rfl
